import Mathlib

/-
Shallow embedding of the aws-missing-tags-resources scanner.

The embedding follows src/specific_tags_are_not_set_aws_resources_per_region_excel.py
(the variant that produces Finding records and the CSV dataset; the sibling
script src/specific_tags_are_not_set_aws_resources_per_region.py contains a
line-for-line identical load_required_tags and check_missing_tags and the same
failure structure in its region scan) and
src/specific_tags_are_not_set_aws_resources_advanced_analysis.py (the analyzer).

Provider calls are modelled as Except-valued fields of an API record: Except.ok
carries the payload the call would return, Except.error models a raised
exception.  The region scan mirrors the source control flow: one outer
try/except around the whole region (on failure the findings accumulated so far
are returned), plus inner try/except blocks around the per-resource tag-lookup
calls for Lambda functions, RDS instances and S3 buckets (on failure a fallback
Finding listing every required tag is appended).
-/

set_option maxHeartbeats 1000000

/-- A tag record as returned by the provider: a Key/Value dictionary.  AWS tag
records always carry a Key, so the defensive dictionary access
with an empty-string default in the source always reads this field. -/
structure AWSTag where
  Key : String
  Value : String := ""
  deriving DecidableEq

/-- An EC2 instance record; the Tags entry defaults to the empty list,
modelling the dictionary access with default. -/
structure EC2Instance where
  InstanceId : String
  Tags : List AWSTag := []
  deriving DecidableEq

/-- An EBS volume record. -/
structure EBSVolume where
  VolumeId : String
  Tags : List AWSTag := []
  deriving DecidableEq

/-- A VPC record. -/
structure Vpc where
  VpcId : String
  Tags : List AWSTag := []
  deriving DecidableEq

/-- A security group record. -/
structure SecurityGroup where
  GroupId : String
  Tags : List AWSTag := []
  deriving DecidableEq

/-- A subnet record. -/
structure Subnet where
  SubnetId : String
  Tags : List AWSTag := []
  deriving DecidableEq

/-- A Lambda function record as returned by list_functions; tags require a
separate list_tags call. -/
structure LambdaFunction where
  FunctionArn : String
  deriving DecidableEq

/-- An RDS database instance record; tags require a separate
list_tags_for_resource call. -/
structure DBInstance where
  DBInstanceArn : String
  deriving DecidableEq

/-- An S3 bucket record; tags require a separate get_bucket_tagging call. -/
structure S3Bucket where
  Name : String
  deriving DecidableEq

/-- One scanner finding, mirroring the dictionary appended to the resources
list in the source.  The source stores the Missing_Tags cell already joined
with a comma plus a space; the embedding keeps the ordered list of tag names
in the record and applies the join in toRow, which is where the record
crosses the CSV boundary.  This is observationally the same data. -/
structure Finding where
  Account : String
  Region : String
  Resource : String
  ARN : String
  Missing_Tags : List String
  deriving DecidableEq

/-- The built-in default required-tag names of load_required_tags. -/
def defaultRequiredTags : List String := ["Environment", "Owner", "Project"]

/-- Python str.strip on the character list of a string: whitespace removed
from both ends. -/
def strip (s : String) : String :=
  String.mk (((s.toList.dropWhile Char.isWhitespace).reverse.dropWhile
    Char.isWhitespace).reverse)

/-- Model of load_required_tags.  The configuration source is none when the
file required_tags.txt is absent (the FileNotFoundError branch) and some lines
when it exists with the given lines; each kept entry is the stripped line, and
lines whose stripped form is empty are dropped. -/
def load_required_tags (file : Option (List String)) : List String :=
  match file with
  | none => defaultRequiredTags
  | some lines => (lines.map strip).filter (fun l => decide (l ≠ ""))

/-- Model of check_missing_tags: required tags whose key is not among the
existing tag records.  Empty (or absent, which Python treats the same through
falsiness) existing tags return the required list itself. -/
def check_missing_tags (resource_tags : List AWSTag) (required_tags : List String) :
    List String :=
  if resource_tags.isEmpty then required_tags
  else
    let existing_tags := resource_tags.map (fun tag => tag.Key)
    required_tags.filter (fun tag => decide (tag ∉ existing_tags))

/-- Findings of the EC2-instance section of the region scan: one pass over the
reservations, one pass over each reservation's instances, a Finding appended
exactly when the missing list is non-empty. -/
def ec2InstanceFindings (region account_id : String) (required_tags : List String)
    (reservations : List (List EC2Instance)) : List Finding :=
  reservations.flatMap (fun reservation =>
    reservation.flatMap (fun inst =>
      let missing := check_missing_tags inst.Tags required_tags
      if missing.isEmpty then []
      else [{ Account := account_id, Region := region, Resource := "EC2 Instance",
              ARN := "arn:aws:ec2:" ++ region ++ ":" ++ account_id ++ ":instance/"
                ++ inst.InstanceId,
              Missing_Tags := missing }]))

/-- Findings of the EBS-volume section of the region scan. -/
def ebsVolumeFindings (region account_id : String) (required_tags : List String)
    (volumes : List EBSVolume) : List Finding :=
  volumes.flatMap (fun volume =>
    let missing := check_missing_tags volume.Tags required_tags
    if missing.isEmpty then []
    else [{ Account := account_id, Region := region, Resource := "EBS Volume",
            ARN := "arn:aws:ec2:" ++ region ++ ":" ++ account_id ++ ":volume/"
              ++ volume.VolumeId,
            Missing_Tags := missing }])

/-- Findings of the VPC section of the region scan. -/
def vpcFindings (region account_id : String) (required_tags : List String)
    (vpcs : List Vpc) : List Finding :=
  vpcs.flatMap (fun vpc =>
    let missing := check_missing_tags vpc.Tags required_tags
    if missing.isEmpty then []
    else [{ Account := account_id, Region := region, Resource := "VPC",
            ARN := "arn:aws:ec2:" ++ region ++ ":" ++ account_id ++ ":vpc/"
              ++ vpc.VpcId,
            Missing_Tags := missing }])

/-- Findings of the security-group section of the region scan. -/
def securityGroupFindings (region account_id : String) (required_tags : List String)
    (security_groups : List SecurityGroup) : List Finding :=
  security_groups.flatMap (fun sg =>
    let missing := check_missing_tags sg.Tags required_tags
    if missing.isEmpty then []
    else [{ Account := account_id, Region := region, Resource := "Security Group",
            ARN := "arn:aws:ec2:" ++ region ++ ":" ++ account_id ++ ":security-group/"
              ++ sg.GroupId,
            Missing_Tags := missing }])

/-- Findings of the subnet section of the region scan. -/
def subnetFindings (region account_id : String) (required_tags : List String)
    (subnets : List Subnet) : List Finding :=
  subnets.flatMap (fun subnet =>
    let missing := check_missing_tags subnet.Tags required_tags
    if missing.isEmpty then []
    else [{ Account := account_id, Region := region, Resource := "Subnet",
            ARN := "arn:aws:ec2:" ++ region ++ ":" ++ account_id ++ ":subnet/"
              ++ subnet.SubnetId,
            Missing_Tags := missing }])

/-- Findings of the Lambda section: list_tags is the per-function tag lookup
(the source converts its Tags dictionary into a list of Key/Value records,
modelled as the returned list); its failure is caught by the inner try/except,
which appends a fallback Finding carrying the whole required list. -/
def lambdaFindings (list_tags : String → Except Unit (List AWSTag))
    (region account_id : String) (required_tags : List String)
    (functions : List LambdaFunction) : List Finding :=
  functions.flatMap (fun function =>
    match list_tags function.FunctionArn with
    | Except.ok tags =>
      let missing := check_missing_tags tags required_tags
      if missing.isEmpty then []
      else [{ Account := account_id, Region := region, Resource := "Lambda Function",
              ARN := function.FunctionArn, Missing_Tags := missing }]
    | Except.error _ =>
      [{ Account := account_id, Region := region, Resource := "Lambda Function",
         ARN := function.FunctionArn, Missing_Tags := required_tags }])

/-- Findings of the RDS section: list_tags_for_resource failures are caught by
the inner try/except, which appends a fallback Finding carrying the whole
required list. -/
def rdsFindings (list_tags_for_resource : String → Except Unit (List AWSTag))
    (region account_id : String) (required_tags : List String)
    (instances : List DBInstance) : List Finding :=
  instances.flatMap (fun inst =>
    match list_tags_for_resource inst.DBInstanceArn with
    | Except.ok tag_list =>
      let missing := check_missing_tags tag_list required_tags
      if missing.isEmpty then []
      else [{ Account := account_id, Region := region, Resource := "RDS Instance",
              ARN := inst.DBInstanceArn, Missing_Tags := missing }]
    | Except.error _ =>
      [{ Account := account_id, Region := region, Resource := "RDS Instance",
         ARN := inst.DBInstanceArn, Missing_Tags := required_tags }])

/-- The provider surface one region scan touches, one Except-valued field per
boto3 call the source makes at top level of the try block, in source order.
The session field models boto3.Session construction itself. -/
structure RegionAPI where
  session : Except Unit Unit
  describe_instances : Except Unit (List (List EC2Instance))
  describe_volumes : Except Unit (List EBSVolume)
  describe_vpcs : Except Unit (List Vpc)
  describe_security_groups : Except Unit (List SecurityGroup)
  describe_subnets : Except Unit (List Subnet)
  list_functions : Except Unit (List LambdaFunction)
  lambda_list_tags : String → Except Unit (List AWSTag)
  describe_db_instances : Except Unit (List DBInstance)
  rds_list_tags : String → Except Unit (List AWSTag)

/-- Model of get_resources_missing_tags_in_region.  The whole body sits in one
try/except whose handler returns the resources accumulated so far, so each
top-level provider call is a cut point: if it fails, the findings of the
sections already executed are returned and no later section runs.  The
per-resource tag lookups inside the Lambda and RDS sections are handled inside
lambdaFindings and rdsFindings and never abort the region. -/
def get_resources_missing_tags_in_region (api : RegionAPI)
    (region account_id : String) (required_tags : List String) : List Finding :=
  match api.session with
  | Except.error _ => []
  | Except.ok _ =>
    match api.describe_instances with
    | Except.error _ => []
    | Except.ok reservations =>
      let acc1 := ec2InstanceFindings region account_id required_tags reservations
      match api.describe_volumes with
      | Except.error _ => acc1
      | Except.ok volumes =>
        let acc2 := acc1 ++ ebsVolumeFindings region account_id required_tags volumes
        match api.describe_vpcs with
        | Except.error _ => acc2
        | Except.ok vpcs =>
          let acc3 := acc2 ++ vpcFindings region account_id required_tags vpcs
          match api.describe_security_groups with
          | Except.error _ => acc3
          | Except.ok security_groups =>
            let acc4 := acc3 ++
              securityGroupFindings region account_id required_tags security_groups
            match api.describe_subnets with
            | Except.error _ => acc4
            | Except.ok subnets =>
              let acc5 := acc4 ++ subnetFindings region account_id required_tags subnets
              match api.list_functions with
              | Except.error _ => acc5
              | Except.ok functions =>
                let acc6 := acc5 ++ lambdaFindings api.lambda_list_tags region
                  account_id required_tags functions
                match api.describe_db_instances with
                | Except.error _ => acc6
                | Except.ok instances =>
                  acc6 ++ rdsFindings api.rds_list_tags region account_id
                    required_tags instances

/-- The provider surface of the global S3 section in main. -/
structure S3API where
  list_buckets : Except Unit (List S3Bucket)
  get_bucket_tagging : String → Except Unit (List AWSTag)

/-- Findings of the per-bucket loop of the S3 section: a failing
get_bucket_tagging call is caught by the inner try/except, which appends a
fallback Finding carrying the whole required list. -/
def s3BucketFindings (get_bucket_tagging : String → Except Unit (List AWSTag))
    (account_id : String) (required_tags : List String)
    (buckets : List S3Bucket) : List Finding :=
  buckets.flatMap (fun bucket =>
    match get_bucket_tagging bucket.Name with
    | Except.ok tags =>
      let missing := check_missing_tags tags required_tags
      if missing.isEmpty then []
      else [{ Account := account_id, Region := "Global", Resource := "S3 Bucket",
              ARN := "arn:aws:s3:::" ++ bucket.Name, Missing_Tags := missing }]
    | Except.error _ =>
      [{ Account := account_id, Region := "Global", Resource := "S3 Bucket",
         ARN := "arn:aws:s3:::" ++ bucket.Name, Missing_Tags := required_tags }])

/-- Model of the S3 section of main: its own outer try/except makes a failing
list_buckets call contribute zero findings. -/
def s3Findings (api : S3API) (account_id : String) (required_tags : List String) :
    List Finding :=
  match api.list_buckets with
  | Except.error _ => []
  | Except.ok buckets =>
    s3BucketFindings api.get_bucket_tagging account_id required_tags buckets

/-- Python join with a comma plus a space between the pieces, at the
character level of the strings. -/
def joinTags (names : List String) : String :=
  String.mk (List.intercalate [',', ' '] (names.map String.toList))

/-- Python split on the two-character separator comma-space: greedy
left-to-right, non-overlapping, always at least one piece (as str.split on a
non-empty separator). -/
def splitCommaSpace : List Char → List (List Char)
  | [] => [[]]
  | [c] => [[c]]
  | c :: d :: rest =>
    if c = ',' ∧ d = ' ' then [] :: splitCommaSpace rest
    else
      let r := splitCommaSpace (d :: rest)
      (c :: r.headD []) :: r.tail

/-- Parsing a Missing_Tags cell of the dataset back into tag names by
splitting on comma-space, the round-trip parse named by the specification. -/
def splitTags (s : String) : List String :=
  (splitCommaSpace s.toList).map String.mk

/-- One row of the persisted CSV dataset, fieldnames as in the source. -/
structure CSVRow where
  Account : String
  Region : String
  Resource : String
  ARN : String
  Missing_Tags : String
  deriving DecidableEq

/-- Serialization of a Finding to its CSV row: the Missing_Tags cell is the
comma-space join of the missing tag names, the other cells carry the fields
verbatim. -/
def toRow (f : Finding) : CSVRow :=
  { Account := f.Account, Region := f.Region, Resource := f.Resource,
    ARN := f.ARN, Missing_Tags := joinTags f.Missing_Tags }

/-- Writing the findings collection to the dataset: one row per Finding in
order.  The csv module quotes and unquotes cells exactly, so reading the
dataset back yields these same rows; the dataset is modelled as the row
list. -/
def writeDataset (findings : List Finding) : List CSVRow :=
  findings.map toRow

/-- One step of Counter construction: a new key is appended with count one,
an existing key's count is incremented in place, keeping insertion order. -/
def counterAdd (acc : List (String × Nat)) (x : String) : List (String × Nat) :=
  if acc.any (fun p => p.1 == x) then
    acc.map (fun p => if p.1 == x then (p.1, p.2 + 1) else p)
  else acc ++ [(x, 1)]

/-- Model of collections.Counter over a list of strings: key/count items in
first-seen key order. -/
def counterItems (xs : List String) : List (String × Nat) :=
  xs.foldl counterAdd []

/-- Stable descending insertion by count: the new pair is placed after every
pair of greater or equal count and before the first pair of smaller count. -/
def insertByCountDesc (p : String × Nat) :
    List (String × Nat) → List (String × Nat)
  | [] => [p]
  | q :: qs => if q.2 < p.2 then p :: q :: qs else q :: insertByCountDesc p qs

/-- Model of Counter.most_common with no bound: the items sorted by count
descending with a stable sort.  A stable sort's output is pinned down
extensionally by sortedness together with preservation of the relative order
of equal-count items, which the insertion realizes. -/
def most_common (items : List (String × Nat)) : List (String × Nat) :=
  items.foldl (fun acc p => insertByCountDesc p acc) []

/-- The grouped-by-resource-kind frequency table of analyze_csv:
Counter(row.Resource for row in rows).most_common(). -/
def resourceTypeCounts (rows : List CSVRow) : List (String × Nat) :=
  most_common (counterItems (rows.map CSVRow.Resource))

/-- One step of first-appearance key collection: keep the accumulator when
the key was already seen, append the key otherwise. -/
def firstSeenStep (acc : List String) (x : String) : List String :=
  if x ∈ acc then acc else acc ++ [x]

/-- Keys of a string list in order of first appearance, the tie-order the
claim about the frequency table names. -/
def firstSeen (xs : List String) : List String :=
  xs.foldl firstSeenStep []

/-- The concrete dataset of the aggregation example: three findings of kind
EC2 Instance and two of kind VPC, EC2 Instance seen first. -/
def exampleRows : List CSVRow :=
  [{ Account := "1", Region := "us-east-1", Resource := "EC2 Instance",
     ARN := "arn:aws:ec2:us-east-1:1:instance/i-1", Missing_Tags := "Owner" },
   { Account := "1", Region := "us-east-1", Resource := "VPC",
     ARN := "arn:aws:ec2:us-east-1:1:vpc/vpc-1", Missing_Tags := "Owner" },
   { Account := "1", Region := "us-west-2", Resource := "EC2 Instance",
     ARN := "arn:aws:ec2:us-west-2:1:instance/i-2", Missing_Tags := "Owner" },
   { Account := "1", Region := "us-west-2", Resource := "VPC",
     ARN := "arn:aws:ec2:us-west-2:1:vpc/vpc-2", Missing_Tags := "Owner" },
   { Account := "1", Region := "eu-west-1", Resource := "EC2 Instance",
     ARN := "arn:aws:ec2:eu-west-1:1:instance/i-3", Missing_Tags := "Owner" }]

/-- A region where the EBS volume listing raises while an untagged EC2
instance was already scanned and an untagged VPC is present: the data of the
per-kind isolation question. -/
def volumesFailAPI : RegionAPI :=
  { session := Except.ok (),
    describe_instances := Except.ok [[{ InstanceId := "i-1" }]],
    describe_volumes := Except.error (),
    describe_vpcs := Except.ok [{ VpcId := "vpc-1" }],
    describe_security_groups := Except.ok [],
    describe_subnets := Except.ok [],
    list_functions := Except.ok [],
    lambda_list_tags := fun _ => Except.ok [],
    describe_db_instances := Except.ok [],
    rds_list_tags := fun _ => Except.ok [] }

/-- A region where every listing succeeds but the per-function Lambda tag
lookup raises for its single function. -/
def lambdaFailAPI : RegionAPI :=
  { session := Except.ok (),
    describe_instances := Except.ok [],
    describe_volumes := Except.ok [],
    describe_vpcs := Except.ok [],
    describe_security_groups := Except.ok [],
    describe_subnets := Except.ok [],
    list_functions := Except.ok
      [{ FunctionArn := "arn:aws:lambda:us-east-1:123456789012:function:fn1" }],
    lambda_list_tags := fun _ => Except.error (),
    describe_db_instances := Except.ok [],
    rds_list_tags := fun _ => Except.ok [] }

/-- A region where every listing succeeds but the per-instance RDS tag lookup
raises for its single database instance. -/
def rdsLookupFailAPI : RegionAPI :=
  { session := Except.ok (),
    describe_instances := Except.ok [],
    describe_volumes := Except.ok [],
    describe_vpcs := Except.ok [],
    describe_security_groups := Except.ok [],
    describe_subnets := Except.ok [],
    list_functions := Except.ok [],
    lambda_list_tags := fun _ => Except.ok [],
    describe_db_instances := Except.ok
      [{ DBInstanceArn := "arn:aws:rds:us-east-1:123456789012:db:db1" }],
    rds_list_tags := fun _ => Except.error () }

/-- A region whose provider session cannot be established at all. -/
def deadAPI : RegionAPI :=
  { session := Except.error (),
    describe_instances := Except.error (),
    describe_volumes := Except.error (),
    describe_vpcs := Except.error (),
    describe_security_groups := Except.error (),
    describe_subnets := Except.error (),
    list_functions := Except.error (),
    lambda_list_tags := fun _ => Except.error (),
    describe_db_instances := Except.error (),
    rds_list_tags := fun _ => Except.error () }

/-- A region where all listings up to the Lambda section succeed, with an
untagged EC2 instance and an untagged subnet already scanned, and then the
RDS instance listing raises. -/
def dbListFailAPI : RegionAPI :=
  { session := Except.ok (),
    describe_instances := Except.ok [[{ InstanceId := "i-1" }]],
    describe_volumes := Except.ok [],
    describe_vpcs := Except.ok [],
    describe_security_groups := Except.ok [],
    describe_subnets := Except.ok [{ SubnetId := "subnet-1" }],
    list_functions := Except.ok [],
    lambda_list_tags := fun _ => Except.ok [],
    describe_db_instances := Except.error (),
    rds_list_tags := fun _ => Except.ok [] }

/-- A global S3 view whose bucket listing succeeds while the per-bucket
tagging call raises for its single bucket. -/
def s3FailAPI : S3API :=
  { list_buckets := Except.ok [{ Name := "b1" }],
    get_bucket_tagging := fun _ => Except.error () }

/-- A finding whose single missing tag name contains a comma-space, the
round-trip counterexample data. -/
def commaNameFinding : Finding :=
  { Account := "123456789012", Region := "us-east-1", Resource := "EC2 Instance",
    ARN := "arn:aws:ec2:us-east-1:123456789012:instance/i-1",
    Missing_Tags := ["a, b"] }

/-- A comma-free two-name finding, the round-trip witness data. -/
def vpcRoundtripFinding : Finding :=
  { Account := "123456789012", Region := "us-east-1", Resource := "VPC",
    ARN := "arn:aws:ec2:us-east-1:123456789012:vpc/vpc-1",
    Missing_Tags := ["Environment", "Owner"] }

/-- The missing list is always a sublist of the required list. -/
theorem check_missing_tags_sublist (existing : List AWSTag) (required : List String) :
    List.Sublist (check_missing_tags existing required) required := by
  cases existing with
  | nil => exact List.Sublist.refl required
  | cons t ts => exact List.filter_sublist required

/-- Membership in the missing list: required and not among the existing
keys. -/
theorem check_missing_tags_mem (existing : List AWSTag) (required : List String)
    (name : String) :
    name ∈ check_missing_tags existing required ↔
      name ∈ required ∧ name ∉ existing.map AWSTag.Key := by
  cases existing with
  | nil => simp [check_missing_tags]
  | cons t ts => simp [check_missing_tags, List.mem_filter]

/-- C2: for every sequence of required tag names and every set of existing tag
records, check_missing_tags existing required is a subsequence of required
preserving its relative order, and its members are exactly the required names
that are not Key values of the existing tag records. -/
theorem C2_missing_tags_subsequence_and_set :
    ∀ (existing : List AWSTag) (required : List String),
      List.Sublist (check_missing_tags existing required) required ∧
      ∀ name : String, name ∈ check_missing_tags existing required ↔
        name ∈ required ∧ name ∉ existing.map AWSTag.Key :=
  fun existing required =>
    ⟨check_missing_tags_sublist existing required,
     fun name => check_missing_tags_mem existing required name⟩

/-- C6: with an empty (or absent) existing tag set, check_missing_tags
returns the required sequence itself, unchanged. -/
theorem C6_empty_tags_identity :
    ∀ required : List String, check_missing_tags [] required = required :=
  fun _ => rfl

/-- C10: load_required_tags yields the built-in default exactly in the
file-absent branch, and an existing file whose lines all strip to nothing
yields the empty required list, not the default. -/
theorem C10_load_required_tags_fallback :
    load_required_tags none = defaultRequiredTags ∧
    ∀ lines : List String, (∀ l ∈ lines, strip l = "") →
      load_required_tags (some lines) = [] := by
  constructor
  · rfl
  · intro lines h
    simp only [load_required_tags]
    apply List.filter_eq_nil_iff.mpr
    intro a ha
    rcases List.mem_map.mp ha with ⟨l, hl, rfl⟩
    simp [h l hl]

/-- C10 witness: a file of one empty and one whitespace-only line yields the
empty required list. -/
theorem C10_load_required_tags_fallback_witness :
    load_required_tags (some ["", "  "]) = [] :=
  C10_load_required_tags_fallback.2 ["", "  "] (by decide)

/-- C4: a region whose provider session cannot be established, or whose very
first provider call fails, contributes the empty findings sequence instead of
an error, so the fleet scan over the other regions proceeds. -/
theorem C4_region_failure_empty :
    ∀ (api : RegionAPI) (region account_id : String) (required_tags : List String),
      (api.session = Except.error () →
        get_resources_missing_tags_in_region api region account_id required_tags
          = []) ∧
      (api.session = Except.ok () → api.describe_instances = Except.error () →
        get_resources_missing_tags_in_region api region account_id required_tags
          = []) := by
  intro api region account_id required_tags
  obtain ⟨ses, di, dv, dp, dsg, dsn, lf, llt, ddb, rlt⟩ := api
  constructor
  · intro h1
    simp only at h1
    subst h1
    simp only [get_resources_missing_tags_in_region]
  · intro h1 h2
    simp only at h1 h2
    subst h1
    subst h2
    simp only [get_resources_missing_tags_in_region]

/-- C4 witness: the dead region yields the empty findings sequence. -/
theorem C4_region_failure_empty_witness :
    get_resources_missing_tags_in_region deadAPI "us-east-1" "123456789012"
      ["Environment", "Owner", "Project"] = [] :=
  (C4_region_failure_empty deadAPI "us-east-1" "123456789012"
    ["Environment", "Owner", "Project"]).1 rfl

/-- C3 counterexample: in a region whose EBS volume listing fails, the VPC
kind has an untagged VPC in its listing (so its scanner run would contribute
a finding), yet the region result contains zero VPC findings: the single
try/except around all kinds stops every kind after the failing call. -/
theorem C3_per_kind_isolation_counterexample :
    volumesFailAPI.describe_volumes = Except.error () ∧
    volumesFailAPI.describe_vpcs = Except.ok [{ VpcId := "vpc-1" }] ∧
    vpcFindings "us-east-1" "123456789012" ["Owner"] [{ VpcId := "vpc-1" }] ≠ [] ∧
    (get_resources_missing_tags_in_region volumesFailAPI "us-east-1" "123456789012"
        ["Owner"]).filter (fun f => f.Resource == "VPC") = [] :=
  ⟨rfl, rfl, by decide, by decide⟩

/-- C3 as amended: a failing provider call for one kind leaves the findings
of the kinds scanned before it intact but stops every kind after it, so the
region result is exactly the findings of the earlier kinds (shown at the
EBS-volume failure point: only the EC2-instance findings survive). -/
theorem C3_failure_stops_later_kinds :
    ∀ (api : RegionAPI) (region account_id : String) (required_tags : List String)
      (reservations : List (List EC2Instance)),
      api.session = Except.ok () →
      api.describe_instances = Except.ok reservations →
      api.describe_volumes = Except.error () →
      get_resources_missing_tags_in_region api region account_id required_tags
        = ec2InstanceFindings region account_id required_tags reservations := by
  intro api region account_id required_tags reservations h1 h2 h3
  obtain ⟨ses, di, dv, dp, dsg, dsn, lf, llt, ddb, rlt⟩ := api
  simp only at h1 h2 h3
  subst h1
  subst h2
  subst h3
  simp only [get_resources_missing_tags_in_region]

/-- C3 witness: the volume-failing region returns exactly its EC2-instance
findings. -/
theorem C3_failure_stops_later_kinds_witness :
    get_resources_missing_tags_in_region volumesFailAPI "us-east-1" "123456789012"
        ["Owner"]
      = ec2InstanceFindings "us-east-1" "123456789012" ["Owner"]
          [[{ InstanceId := "i-1" }]] :=
  C3_failure_stops_later_kinds volumesFailAPI "us-east-1" "123456789012" ["Owner"]
    [[{ InstanceId := "i-1" }]] rfl rfl rfl

/-- C9: whichever provider call fails partway through a region scan, the scan
returns exactly the findings accumulated by the sections already executed —
and hence a non-empty partial result whenever something was accumulated —
rather than the empty sequence or an error.  One conjunct per interior
failure point, in the fixed scan order. -/
theorem C9_partial_result_on_failure :
    ∀ (api : RegionAPI) (region account_id : String) (required_tags : List String)
      (reservations : List (List EC2Instance)) (volumes : List EBSVolume)
      (vpcs : List Vpc) (security_groups : List SecurityGroup)
      (subnets : List Subnet) (functions : List LambdaFunction),
      api.session = Except.ok () →
      api.describe_instances = Except.ok reservations →
      (api.describe_volumes = Except.error () →
        get_resources_missing_tags_in_region api region account_id required_tags
          = ec2InstanceFindings region account_id required_tags reservations) ∧
      (api.describe_volumes = Except.ok volumes →
       api.describe_vpcs = Except.error () →
        get_resources_missing_tags_in_region api region account_id required_tags
          = ec2InstanceFindings region account_id required_tags reservations
            ++ ebsVolumeFindings region account_id required_tags volumes) ∧
      (api.describe_volumes = Except.ok volumes →
       api.describe_vpcs = Except.ok vpcs →
       api.describe_security_groups = Except.error () →
        get_resources_missing_tags_in_region api region account_id required_tags
          = (ec2InstanceFindings region account_id required_tags reservations
              ++ ebsVolumeFindings region account_id required_tags volumes)
            ++ vpcFindings region account_id required_tags vpcs) ∧
      (api.describe_volumes = Except.ok volumes →
       api.describe_vpcs = Except.ok vpcs →
       api.describe_security_groups = Except.ok security_groups →
       api.describe_subnets = Except.error () →
        get_resources_missing_tags_in_region api region account_id required_tags
          = ((ec2InstanceFindings region account_id required_tags reservations
               ++ ebsVolumeFindings region account_id required_tags volumes)
              ++ vpcFindings region account_id required_tags vpcs)
            ++ securityGroupFindings region account_id required_tags security_groups) ∧
      (api.describe_volumes = Except.ok volumes →
       api.describe_vpcs = Except.ok vpcs →
       api.describe_security_groups = Except.ok security_groups →
       api.describe_subnets = Except.ok subnets →
       api.list_functions = Except.error () →
        get_resources_missing_tags_in_region api region account_id required_tags
          = (((ec2InstanceFindings region account_id required_tags reservations
                ++ ebsVolumeFindings region account_id required_tags volumes)
               ++ vpcFindings region account_id required_tags vpcs)
              ++ securityGroupFindings region account_id required_tags security_groups)
            ++ subnetFindings region account_id required_tags subnets) ∧
      (api.describe_volumes = Except.ok volumes →
       api.describe_vpcs = Except.ok vpcs →
       api.describe_security_groups = Except.ok security_groups →
       api.describe_subnets = Except.ok subnets →
       api.list_functions = Except.ok functions →
       api.describe_db_instances = Except.error () →
        get_resources_missing_tags_in_region api region account_id required_tags
          = ((((ec2InstanceFindings region account_id required_tags reservations
                 ++ ebsVolumeFindings region account_id required_tags volumes)
                ++ vpcFindings region account_id required_tags vpcs)
               ++ securityGroupFindings region account_id required_tags security_groups)
              ++ subnetFindings region account_id required_tags subnets)
            ++ lambdaFindings api.lambda_list_tags region account_id required_tags
                functions
          ∧ (ec2InstanceFindings region account_id required_tags reservations ≠ [] →
             get_resources_missing_tags_in_region api region account_id required_tags
               ≠ [])) := by
  intro api region account_id required_tags reservations volumes vpcs security_groups
    subnets functions h1 h2
  obtain ⟨ses, di, dv, dp, dsg, dsn, lf, llt, ddb, rlt⟩ := api
  simp only at h1 h2
  subst h1
  subst h2
  refine ⟨?_, ?_, ?_, ?_, ?_, ?_⟩
  · intro h3
    simp only at h3
    subst h3
    simp only [get_resources_missing_tags_in_region]
  · intro h3 h4
    simp only at h3 h4
    subst h3
    subst h4
    simp only [get_resources_missing_tags_in_region]
  · intro h3 h4 h5
    simp only at h3 h4 h5
    subst h3
    subst h4
    subst h5
    simp only [get_resources_missing_tags_in_region]
  · intro h3 h4 h5 h6
    simp only at h3 h4 h5 h6
    subst h3
    subst h4
    subst h5
    subst h6
    simp only [get_resources_missing_tags_in_region]
  · intro h3 h4 h5 h6 h7
    simp only at h3 h4 h5 h6 h7
    subst h3
    subst h4
    subst h5
    subst h6
    subst h7
    simp only [get_resources_missing_tags_in_region]
  · intro h3 h4 h5 h6 h7 h8
    simp only at h3 h4 h5 h6 h7 h8
    subst h3
    subst h4
    subst h5
    subst h6
    subst h7
    subst h8
    have heq : get_resources_missing_tags_in_region
        ⟨Except.ok (), Except.ok reservations, Except.ok volumes, Except.ok vpcs,
         Except.ok security_groups, Except.ok subnets, Except.ok functions, llt,
         Except.error (), rlt⟩ region account_id required_tags
        = ((((ec2InstanceFindings region account_id required_tags reservations
               ++ ebsVolumeFindings region account_id required_tags volumes)
              ++ vpcFindings region account_id required_tags vpcs)
             ++ securityGroupFindings region account_id required_tags security_groups)
            ++ subnetFindings region account_id required_tags subnets)
          ++ lambdaFindings llt region account_id required_tags functions := by
      simp only [get_resources_missing_tags_in_region]
    refine ⟨heq, ?_⟩
    intro hne
    rw [heq]
    intro habs
    rcases List.append_eq_nil.mp habs with ⟨h9, _⟩
    rcases List.append_eq_nil.mp h9 with ⟨h10, _⟩
    rcases List.append_eq_nil.mp h10 with ⟨h11, _⟩
    rcases List.append_eq_nil.mp h11 with ⟨h12, _⟩
    rcases List.append_eq_nil.mp h12 with ⟨h13, _⟩
    exact hne h13

/-- C9 witness: in the region whose RDS listing fails after five sections
already ran, the result is exactly the accumulated earlier findings, and it
is non-empty because an untagged EC2 instance was scanned. -/
theorem C9_partial_result_on_failure_witness :
    get_resources_missing_tags_in_region dbListFailAPI "us-east-1" "123456789012"
        ["Owner"]
      = ((((ec2InstanceFindings "us-east-1" "123456789012" ["Owner"]
             [[{ InstanceId := "i-1" }]]
             ++ ebsVolumeFindings "us-east-1" "123456789012" ["Owner"] [])
            ++ vpcFindings "us-east-1" "123456789012" ["Owner"] [])
           ++ securityGroupFindings "us-east-1" "123456789012" ["Owner"] [])
          ++ subnetFindings "us-east-1" "123456789012" ["Owner"]
              [{ SubnetId := "subnet-1" }])
        ++ lambdaFindings dbListFailAPI.lambda_list_tags "us-east-1" "123456789012"
            ["Owner"] [] :=
  ((C9_partial_result_on_failure dbListFailAPI "us-east-1" "123456789012" ["Owner"]
      [[{ InstanceId := "i-1" }]] [] [] [] [{ SubnetId := "subnet-1" }] []
      rfl rfl).2.2.2.2.2 rfl rfl rfl rfl rfl rfl).1

/-- A listed Lambda function whose tag lookup fails contributes the fallback
finding that lists every required tag. -/
theorem lambdaFindings_fallback_mem (list_tags : String → Except Unit (List AWSTag))
    (region account_id : String) (required_tags : List String)
    (functions : List LambdaFunction) (f : LambdaFunction)
    (hf : f ∈ functions) (herr : list_tags f.FunctionArn = Except.error ()) :
    ({ Account := account_id, Region := region, Resource := "Lambda Function",
       ARN := f.FunctionArn, Missing_Tags := required_tags } : Finding)
      ∈ lambdaFindings list_tags region account_id required_tags functions := by
  unfold lambdaFindings
  refine List.mem_flatMap.mpr ⟨f, hf, ?_⟩
  rw [herr]
  simp

/-- A listed RDS instance whose tag lookup fails contributes the fallback
finding that lists every required tag. -/
theorem rdsFindings_fallback_mem
    (list_tags_for_resource : String → Except Unit (List AWSTag))
    (region account_id : String) (required_tags : List String)
    (instances : List DBInstance) (db : DBInstance)
    (hdb : db ∈ instances)
    (herr : list_tags_for_resource db.DBInstanceArn = Except.error ()) :
    ({ Account := account_id, Region := region, Resource := "RDS Instance",
       ARN := db.DBInstanceArn, Missing_Tags := required_tags } : Finding)
      ∈ rdsFindings list_tags_for_resource region account_id required_tags instances := by
  unfold rdsFindings
  refine List.mem_flatMap.mpr ⟨db, hdb, ?_⟩
  rw [herr]
  simp

/-- A listed S3 bucket whose tagging lookup fails contributes the fallback
finding that lists every required tag. -/
theorem s3BucketFindings_fallback_mem
    (get_bucket_tagging : String → Except Unit (List AWSTag))
    (account_id : String) (required_tags : List String)
    (buckets : List S3Bucket) (b : S3Bucket)
    (hb : b ∈ buckets) (herr : get_bucket_tagging b.Name = Except.error ()) :
    ({ Account := account_id, Region := "Global", Resource := "S3 Bucket",
       ARN := "arn:aws:s3:::" ++ b.Name, Missing_Tags := required_tags } : Finding)
      ∈ s3BucketFindings get_bucket_tagging account_id required_tags buckets := by
  unfold s3BucketFindings
  refine List.mem_flatMap.mpr ⟨b, hb, ?_⟩
  rw [herr]
  simp

/-- C1: for each kind whose tags need a separate lookup call (Lambda
Function, RDS Instance, S3 Bucket), a resource the scan reaches whose tag
lookup fails is not dropped and not propagated as an error: a Finding for it
whose missing list is the whole required list appears in the output. -/
theorem C1_tag_lookup_fail_open :
    ∀ (api : RegionAPI) (s3api : S3API) (region account_id : String)
      (required_tags : List String)
      (reservations : List (List EC2Instance)) (volumes : List EBSVolume)
      (vpcs : List Vpc) (security_groups : List SecurityGroup)
      (subnets : List Subnet) (functions : List LambdaFunction)
      (f : LambdaFunction) (instances : List DBInstance) (db : DBInstance)
      (buckets : List S3Bucket) (b : S3Bucket),
      (api.session = Except.ok () →
       api.describe_instances = Except.ok reservations →
       api.describe_volumes = Except.ok volumes →
       api.describe_vpcs = Except.ok vpcs →
       api.describe_security_groups = Except.ok security_groups →
       api.describe_subnets = Except.ok subnets →
       api.list_functions = Except.ok functions →
       f ∈ functions →
       api.lambda_list_tags f.FunctionArn = Except.error () →
       ({ Account := account_id, Region := region, Resource := "Lambda Function",
          ARN := f.FunctionArn, Missing_Tags := required_tags } : Finding)
         ∈ get_resources_missing_tags_in_region api region account_id required_tags) ∧
      (api.session = Except.ok () →
       api.describe_instances = Except.ok reservations →
       api.describe_volumes = Except.ok volumes →
       api.describe_vpcs = Except.ok vpcs →
       api.describe_security_groups = Except.ok security_groups →
       api.describe_subnets = Except.ok subnets →
       api.list_functions = Except.ok functions →
       api.describe_db_instances = Except.ok instances →
       db ∈ instances →
       api.rds_list_tags db.DBInstanceArn = Except.error () →
       ({ Account := account_id, Region := region, Resource := "RDS Instance",
          ARN := db.DBInstanceArn, Missing_Tags := required_tags } : Finding)
         ∈ get_resources_missing_tags_in_region api region account_id required_tags) ∧
      (s3api.list_buckets = Except.ok buckets →
       b ∈ buckets →
       s3api.get_bucket_tagging b.Name = Except.error () →
       ({ Account := account_id, Region := "Global", Resource := "S3 Bucket",
          ARN := "arn:aws:s3:::" ++ b.Name, Missing_Tags := required_tags } : Finding)
         ∈ s3Findings s3api account_id required_tags) := by
  intro api s3api region account_id required_tags reservations volumes vpcs
    security_groups subnets functions f instances db buckets b
  obtain ⟨ses, di, dv, dp, dsg, dsn, lf, llt, ddb, rlt⟩ := api
  obtain ⟨lb, gbt⟩ := s3api
  refine ⟨?_, ?_, ?_⟩
  · intro h1 h2 h3 h4 h5 h6 h7 hf herr
    simp only at h1 h2 h3 h4 h5 h6 h7 herr
    subst h1
    subst h2
    subst h3
    subst h4
    subst h5
    subst h6
    subst h7
    simp only [get_resources_missing_tags_in_region]
    cases ddb with
    | error e =>
      exact List.mem_append_right _
        (lambdaFindings_fallback_mem llt region account_id required_tags functions
          f hf herr)
    | ok dbs =>
      exact List.mem_append_left _ (List.mem_append_right _
        (lambdaFindings_fallback_mem llt region account_id required_tags functions
          f hf herr))
  · intro h1 h2 h3 h4 h5 h6 h7 h8 hdb herr
    simp only at h1 h2 h3 h4 h5 h6 h7 h8 herr
    subst h1
    subst h2
    subst h3
    subst h4
    subst h5
    subst h6
    subst h7
    subst h8
    simp only [get_resources_missing_tags_in_region]
    exact List.mem_append_right _
      (rdsFindings_fallback_mem rlt region account_id required_tags instances
        db hdb herr)
  · intro h1 hb herr
    simp only at h1 herr
    subst h1
    simp only [s3Findings]
    exact s3BucketFindings_fallback_mem gbt account_id required_tags buckets b hb herr

/-- C1 witness: the three fallback findings appear in the respective outputs
of the lookup-failing regions and global view. -/
theorem C1_tag_lookup_fail_open_witness :
    ({ Account := "123456789012", Region := "us-east-1",
       Resource := "Lambda Function",
       ARN := "arn:aws:lambda:us-east-1:123456789012:function:fn1",
       Missing_Tags := ["Owner"] } : Finding)
      ∈ get_resources_missing_tags_in_region lambdaFailAPI "us-east-1"
          "123456789012" ["Owner"] ∧
    ({ Account := "123456789012", Region := "us-east-1", Resource := "RDS Instance",
       ARN := "arn:aws:rds:us-east-1:123456789012:db:db1",
       Missing_Tags := ["Owner"] } : Finding)
      ∈ get_resources_missing_tags_in_region rdsLookupFailAPI "us-east-1"
          "123456789012" ["Owner"] ∧
    ({ Account := "123456789012", Region := "Global", Resource := "S3 Bucket",
       ARN := "arn:aws:s3:::" ++ "b1", Missing_Tags := ["Owner"] } : Finding)
      ∈ s3Findings s3FailAPI "123456789012" ["Owner"] :=
  ⟨(C1_tag_lookup_fail_open lambdaFailAPI s3FailAPI "us-east-1" "123456789012"
      ["Owner"] [] [] [] [] []
      [{ FunctionArn := "arn:aws:lambda:us-east-1:123456789012:function:fn1" }]
      { FunctionArn := "arn:aws:lambda:us-east-1:123456789012:function:fn1" }
      [] { DBInstanceArn := "x" } [] { Name := "x" }).1
      rfl rfl rfl rfl rfl rfl rfl (by decide) rfl,
   (C1_tag_lookup_fail_open rdsLookupFailAPI s3FailAPI "us-east-1" "123456789012"
      ["Owner"] [] [] [] [] [] [] { FunctionArn := "x" }
      [{ DBInstanceArn := "arn:aws:rds:us-east-1:123456789012:db:db1" }]
      { DBInstanceArn := "arn:aws:rds:us-east-1:123456789012:db:db1" }
      [] { Name := "x" }).2.1
      rfl rfl rfl rfl rfl rfl rfl rfl (by decide) rfl,
   (C1_tag_lookup_fail_open lambdaFailAPI s3FailAPI "us-east-1" "123456789012"
      ["Owner"] [] [] [] [] [] [] { FunctionArn := "x" } [] { DBInstanceArn := "x" }
      [{ Name := "b1" }] { Name := "b1" }).2.2
      rfl (by decide) rfl⟩

/-- Membership in a guarded singleton: the member is the guarded finding and
the guarding missing list is non-empty. -/
theorem mem_missing_guard {f r : Finding} {l : List String}
    (hf : f ∈ (if l.isEmpty then ([] : List Finding) else [r])) : f = r ∧ l ≠ [] := by
  cases l with
  | nil => simp at hf
  | cons x xs =>
    simp at hf
    exact ⟨hf, by simp⟩

/-- EC2-instance findings carry a non-empty missing list. -/
theorem ec2InstanceFindings_missing_nonempty (region account_id : String)
    (required_tags : List String) (reservations : List (List EC2Instance)) :
    ∀ f ∈ ec2InstanceFindings region account_id required_tags reservations,
      f.Missing_Tags ≠ [] := by
  intro f hf
  simp only [ec2InstanceFindings, List.mem_flatMap] at hf
  rcases hf with ⟨res, hres, inst, hinst, hf⟩
  obtain ⟨rfl, hne⟩ := mem_missing_guard hf
  exact hne

/-- EBS-volume findings carry a non-empty missing list. -/
theorem ebsVolumeFindings_missing_nonempty (region account_id : String)
    (required_tags : List String) (volumes : List EBSVolume) :
    ∀ f ∈ ebsVolumeFindings region account_id required_tags volumes,
      f.Missing_Tags ≠ [] := by
  intro f hf
  simp only [ebsVolumeFindings, List.mem_flatMap] at hf
  rcases hf with ⟨v, hv, hf⟩
  obtain ⟨rfl, hne⟩ := mem_missing_guard hf
  exact hne

/-- VPC findings carry a non-empty missing list. -/
theorem vpcFindings_missing_nonempty (region account_id : String)
    (required_tags : List String) (vpcs : List Vpc) :
    ∀ f ∈ vpcFindings region account_id required_tags vpcs, f.Missing_Tags ≠ [] := by
  intro f hf
  simp only [vpcFindings, List.mem_flatMap] at hf
  rcases hf with ⟨v, hv, hf⟩
  obtain ⟨rfl, hne⟩ := mem_missing_guard hf
  exact hne

/-- Security-group findings carry a non-empty missing list. -/
theorem securityGroupFindings_missing_nonempty (region account_id : String)
    (required_tags : List String) (security_groups : List SecurityGroup) :
    ∀ f ∈ securityGroupFindings region account_id required_tags security_groups,
      f.Missing_Tags ≠ [] := by
  intro f hf
  simp only [securityGroupFindings, List.mem_flatMap] at hf
  rcases hf with ⟨g, hg, hf⟩
  obtain ⟨rfl, hne⟩ := mem_missing_guard hf
  exact hne

/-- Subnet findings carry a non-empty missing list. -/
theorem subnetFindings_missing_nonempty (region account_id : String)
    (required_tags : List String) (subnets : List Subnet) :
    ∀ f ∈ subnetFindings region account_id required_tags subnets,
      f.Missing_Tags ≠ [] := by
  intro f hf
  simp only [subnetFindings, List.mem_flatMap] at hf
  rcases hf with ⟨s, hs, hf⟩
  obtain ⟨rfl, hne⟩ := mem_missing_guard hf
  exact hne

/-- Lambda findings carry a non-empty missing list when the required list is
non-empty (the fallback branch copies the required list). -/
theorem lambdaFindings_missing_nonempty
    (list_tags : String → Except Unit (List AWSTag)) (region account_id : String)
    (required_tags : List String) (hreq : required_tags ≠ [])
    (functions : List LambdaFunction) :
    ∀ f ∈ lambdaFindings list_tags region account_id required_tags functions,
      f.Missing_Tags ≠ [] := by
  intro f hf
  simp only [lambdaFindings, List.mem_flatMap] at hf
  rcases hf with ⟨fn, hfn, hf⟩
  cases h : list_tags fn.FunctionArn with
  | ok tags =>
    rw [h] at hf
    obtain ⟨rfl, hne⟩ := mem_missing_guard hf
    exact hne
  | error e =>
    rw [h] at hf
    simp at hf
    subst hf
    exact hreq

/-- RDS findings carry a non-empty missing list when the required list is
non-empty. -/
theorem rdsFindings_missing_nonempty
    (list_tags_for_resource : String → Except Unit (List AWSTag))
    (region account_id : String) (required_tags : List String)
    (hreq : required_tags ≠ []) (instances : List DBInstance) :
    ∀ f ∈ rdsFindings list_tags_for_resource region account_id required_tags
        instances, f.Missing_Tags ≠ [] := by
  intro f hf
  simp only [rdsFindings, List.mem_flatMap] at hf
  rcases hf with ⟨inst, hinst, hf⟩
  cases h : list_tags_for_resource inst.DBInstanceArn with
  | ok tags =>
    rw [h] at hf
    obtain ⟨rfl, hne⟩ := mem_missing_guard hf
    exact hne
  | error e =>
    rw [h] at hf
    simp at hf
    subst hf
    exact hreq

/-- S3 bucket findings carry a non-empty missing list when the required list
is non-empty. -/
theorem s3BucketFindings_missing_nonempty
    (get_bucket_tagging : String → Except Unit (List AWSTag))
    (account_id : String) (required_tags : List String)
    (hreq : required_tags ≠ []) (buckets : List S3Bucket) :
    ∀ f ∈ s3BucketFindings get_bucket_tagging account_id required_tags buckets,
      f.Missing_Tags ≠ [] := by
  intro f hf
  simp only [s3BucketFindings, List.mem_flatMap] at hf
  rcases hf with ⟨bk, hbk, hf⟩
  cases h : get_bucket_tagging bk.Name with
  | ok tags =>
    rw [h] at hf
    obtain ⟨rfl, hne⟩ := mem_missing_guard hf
    exact hne
  | error e =>
    rw [h] at hf
    simp at hf
    subst hf
    exact hreq

/-- C5 counterexample: with an empty required list — which a run reaches when
the configuration file exists with only blank content — the fail-open branch
appends a Finding whose missing list is empty. -/
theorem C5_nonempty_counterexample :
    load_required_tags (some [""]) = [] ∧
    (get_resources_missing_tags_in_region lambdaFailAPI "us-east-1" "123456789012"
        (load_required_tags (some [""]))).map Finding.Missing_Tags = [[]] := by
  decide

/-- C5 as amended: when the run's required list is non-empty, every Finding
appended by any scanner path — inline-tag kinds, separate-lookup kinds and
the fail-open branches, in the region scan and in the global S3 scan — has a
non-empty missing list. -/
theorem C5_missing_tags_nonempty :
    ∀ (api : RegionAPI) (s3api : S3API) (region account_id : String)
      (required_tags : List String), required_tags ≠ [] →
      (∀ f ∈ get_resources_missing_tags_in_region api region account_id
          required_tags, f.Missing_Tags ≠ []) ∧
      (∀ f ∈ s3Findings s3api account_id required_tags, f.Missing_Tags ≠ []) := by
  intro api s3api region account_id required_tags hreq
  obtain ⟨ses, di, dv, dp, dsg, dsn, lf, llt, ddb, rlt⟩ := api
  obtain ⟨lb, gbt⟩ := s3api
  constructor
  · intro f hf
    simp only [get_resources_missing_tags_in_region] at hf
    cases ses with
    | error e => simp at hf
    | ok u =>
    cases di with
    | error e => simp at hf
    | ok reservations =>
    cases dv with
    | error e => exact ec2InstanceFindings_missing_nonempty _ _ _ _ f hf
    | ok volumes =>
    cases dp with
    | error e =>
      rcases List.mem_append.mp hf with hf | hf
      · exact ec2InstanceFindings_missing_nonempty _ _ _ _ f hf
      · exact ebsVolumeFindings_missing_nonempty _ _ _ _ f hf
    | ok vpcs =>
    cases dsg with
    | error e =>
      rcases List.mem_append.mp hf with hf | hf
      · rcases List.mem_append.mp hf with hf | hf
        · exact ec2InstanceFindings_missing_nonempty _ _ _ _ f hf
        · exact ebsVolumeFindings_missing_nonempty _ _ _ _ f hf
      · exact vpcFindings_missing_nonempty _ _ _ _ f hf
    | ok security_groups =>
    cases dsn with
    | error e =>
      rcases List.mem_append.mp hf with hf | hf
      · rcases List.mem_append.mp hf with hf | hf
        · rcases List.mem_append.mp hf with hf | hf
          · exact ec2InstanceFindings_missing_nonempty _ _ _ _ f hf
          · exact ebsVolumeFindings_missing_nonempty _ _ _ _ f hf
        · exact vpcFindings_missing_nonempty _ _ _ _ f hf
      · exact securityGroupFindings_missing_nonempty _ _ _ _ f hf
    | ok subnets =>
    cases lf with
    | error e =>
      rcases List.mem_append.mp hf with hf | hf
      · rcases List.mem_append.mp hf with hf | hf
        · rcases List.mem_append.mp hf with hf | hf
          · rcases List.mem_append.mp hf with hf | hf
            · exact ec2InstanceFindings_missing_nonempty _ _ _ _ f hf
            · exact ebsVolumeFindings_missing_nonempty _ _ _ _ f hf
          · exact vpcFindings_missing_nonempty _ _ _ _ f hf
        · exact securityGroupFindings_missing_nonempty _ _ _ _ f hf
      · exact subnetFindings_missing_nonempty _ _ _ _ f hf
    | ok functions =>
    cases ddb with
    | error e =>
      rcases List.mem_append.mp hf with hf | hf
      · rcases List.mem_append.mp hf with hf | hf
        · rcases List.mem_append.mp hf with hf | hf
          · rcases List.mem_append.mp hf with hf | hf
            · rcases List.mem_append.mp hf with hf | hf
              · exact ec2InstanceFindings_missing_nonempty _ _ _ _ f hf
              · exact ebsVolumeFindings_missing_nonempty _ _ _ _ f hf
            · exact vpcFindings_missing_nonempty _ _ _ _ f hf
          · exact securityGroupFindings_missing_nonempty _ _ _ _ f hf
        · exact subnetFindings_missing_nonempty _ _ _ _ f hf
      · exact lambdaFindings_missing_nonempty _ _ _ _ hreq _ f hf
    | ok instances =>
      rcases List.mem_append.mp hf with hf | hf
      · rcases List.mem_append.mp hf with hf | hf
        · rcases List.mem_append.mp hf with hf | hf
          · rcases List.mem_append.mp hf with hf | hf
            · rcases List.mem_append.mp hf with hf | hf
              · rcases List.mem_append.mp hf with hf | hf
                · exact ec2InstanceFindings_missing_nonempty _ _ _ _ f hf
                · exact ebsVolumeFindings_missing_nonempty _ _ _ _ f hf
              · exact vpcFindings_missing_nonempty _ _ _ _ f hf
            · exact securityGroupFindings_missing_nonempty _ _ _ _ f hf
          · exact subnetFindings_missing_nonempty _ _ _ _ f hf
        · exact lambdaFindings_missing_nonempty _ _ _ _ hreq _ f hf
      · exact rdsFindings_missing_nonempty _ _ _ _ hreq _ f hf
  · intro f hf
    simp only [s3Findings] at hf
    cases lb with
    | error e => simp at hf
    | ok buckets => exact s3BucketFindings_missing_nonempty _ _ _ hreq _ f hf

/-- C5 witness: the fallback Lambda finding of a lookup-failing region has a
non-empty missing list under the non-empty required list. -/
theorem C5_missing_tags_nonempty_witness :
    ({ Account := "123456789012", Region := "us-east-1",
       Resource := "Lambda Function",
       ARN := "arn:aws:lambda:us-east-1:123456789012:function:fn1",
       Missing_Tags := ["Owner"] } : Finding).Missing_Tags ≠ [] :=
  (C5_missing_tags_nonempty lambdaFailAPI s3FailAPI "us-east-1" "123456789012"
      ["Owner"] (by decide)).1
    { Account := "123456789012", Region := "us-east-1",
      Resource := "Lambda Function",
      ARN := "arn:aws:lambda:us-east-1:123456789012:function:fn1",
      Missing_Tags := ["Owner"] }
    (by decide)

/-- Unfolding of the two-exposed-characters case of splitCommaSpace. -/
theorem splitCommaSpace_cons_cons (c d : Char) (rest : List Char) :
    splitCommaSpace (c :: d :: rest)
      = if c = ',' ∧ d = ' ' then [] :: splitCommaSpace rest
        else (c :: (splitCommaSpace (d :: rest)).headD []) ::
          (splitCommaSpace (d :: rest)).tail := rfl

/-- Splitting a comma-free piece yields the piece alone. -/
theorem splitCommaSpace_no_comma (p : List Char) (hp : ',' ∉ p) :
    splitCommaSpace p = [p] := by
  induction p with
  | nil => simp [splitCommaSpace]
  | cons c cs ih =>
    have hc : c ≠ ',' := by
      intro h
      apply hp
      rw [h]
      exact List.mem_cons_self _ _
    have hcs : ',' ∉ cs := fun h => hp (List.mem_cons_of_mem c h)
    cases cs with
    | nil => simp [splitCommaSpace]
    | cons d rest =>
      rw [splitCommaSpace_cons_cons]
      rw [if_neg (fun h => hc h.1)]
      rw [ih hcs]
      simp

/-- Splitting at an explicit comma-space seam after a comma-free piece peels
the piece off. -/
theorem splitCommaSpace_seam (p s : List Char) (hp : ',' ∉ p) :
    splitCommaSpace (p ++ ',' :: ' ' :: s) = p :: splitCommaSpace s := by
  induction p with
  | nil =>
    show splitCommaSpace (',' :: ' ' :: s) = [] :: splitCommaSpace s
    rw [splitCommaSpace_cons_cons]
    rw [if_pos ⟨rfl, rfl⟩]
  | cons c p2 ih =>
    have hc : c ≠ ',' := by
      intro h
      apply hp
      rw [h]
      exact List.mem_cons_self _ _
    have hp2 : ',' ∉ p2 := fun h => hp (List.mem_cons_of_mem c h)
    cases p2 with
    | nil =>
      show splitCommaSpace (c :: ',' :: ' ' :: s) = [c] :: splitCommaSpace s
      have hx : splitCommaSpace (',' :: ' ' :: s) = [] :: splitCommaSpace s := by
        rw [splitCommaSpace_cons_cons]
        rw [if_pos ⟨rfl, rfl⟩]
      rw [splitCommaSpace_cons_cons]
      rw [if_neg (fun h => hc h.1)]
      rw [hx]
      simp
    | cons d p3 =>
      have ih3 : splitCommaSpace (d :: (p3 ++ ',' :: ' ' :: s))
          = (d :: p3) :: splitCommaSpace s := by
        rw [show d :: (p3 ++ ',' :: ' ' :: s)
            = (d :: p3) ++ ',' :: ' ' :: s from rfl]
        exact ih hp2
      show splitCommaSpace (c :: d :: (p3 ++ ',' :: ' ' :: s))
          = (c :: d :: p3) :: splitCommaSpace s
      rw [splitCommaSpace_cons_cons]
      rw [if_neg (fun h => hc h.1)]
      rw [ih3]
      simp

/-- Intercalate unfolding at a two-piece front. -/
theorem intercalate_two (sep x y : List Char) (l : List (List Char)) :
    List.intercalate sep (x :: y :: l) = x ++ sep ++ List.intercalate sep (y :: l) := by
  simp [List.intercalate, List.intersperse]

/-- Splitting the comma-space intercalation of comma-free pieces recovers the
pieces. -/
theorem splitCommaSpace_intercalate (l : List (List Char)) (hl : l ≠ [])
    (h : ∀ p ∈ l, ',' ∉ p) :
    splitCommaSpace (List.intercalate [',', ' '] l) = l := by
  induction l with
  | nil => exact absurd rfl hl
  | cons p l2 ih =>
    cases l2 with
    | nil =>
      have hone : List.intercalate [',', ' '] [p] = p := by
        simp [List.intercalate]
      rw [hone]
      exact splitCommaSpace_no_comma p (h p (List.mem_cons_self p []))
    | cons q l3 =>
      rw [intercalate_two, List.append_assoc]
      rw [show ([',', ' '] : List Char) ++ List.intercalate [',', ' '] (q :: l3)
          = ',' :: ' ' :: List.intercalate [',', ' '] (q :: l3) from rfl]
      rw [splitCommaSpace_seam _ _ (h p (List.mem_cons_self p _))]
      rw [ih (by simp) (fun r hr => h r (List.mem_cons_of_mem p hr))]

/-- Rebuilding a string from its character list is the identity. -/
theorem mk_toList (s : String) : String.mk s.toList = s := rfl

/-- The character list of a rebuilt string is the original list. -/
theorem toList_mk (l : List Char) : (String.mk l).toList = l := rfl

/-- The comma-space split of the comma-space join of a non-empty list of
comma-free names recovers the names. -/
theorem splitTags_joinTags (names : List String) (h1 : names ≠ [])
    (h2 : ∀ n ∈ names, ',' ∉ n.toList) :
    splitTags (joinTags names) = names := by
  unfold splitTags joinTags
  rw [toList_mk]
  rw [splitCommaSpace_intercalate]
  · rw [List.map_map]
    exact List.map_id names
  · simpa using h1
  · intro p hp
    rcases List.mem_map.mp hp with ⟨n, hn, rfl⟩
    exact h2 n hn

/-- C7 counterexample: a Finding whose single missing name contains a
comma-space is serialized to a cell whose comma-space split does not recover
the original sequence; an empty missing list does not round-trip either. -/
theorem C7_roundtrip_counterexample :
    commaNameFinding.Missing_Tags = ["a, b"] ∧
    splitTags ((toRow commaNameFinding).Missing_Tags) ≠ ["a, b"] ∧
    splitTags (joinTags []) ≠ ([] : List String) := by
  decide

/-- C7 as amended: for findings whose missing lists are non-empty and whose
tag names contain no comma, writing the collection to the dataset and parsing
each Missing_Tags cell by the comma-space split recovers every finding
exactly, so the dataset round-trip preserves the tuples and the ordered tag
sequences. -/
theorem C7_roundtrip :
    ∀ findings : List Finding,
      (∀ f ∈ findings, f.Missing_Tags ≠ [] ∧
        ∀ name ∈ f.Missing_Tags, ',' ∉ name.toList) →
      (writeDataset findings).map (fun r =>
          ({ Account := r.Account, Region := r.Region, Resource := r.Resource,
             ARN := r.ARN, Missing_Tags := splitTags r.Missing_Tags } : Finding))
        = findings ∧
      ∀ f ∈ findings, splitTags ((toRow f).Missing_Tags) = f.Missing_Tags := by
  intro findings h
  have hsplit : ∀ f ∈ findings,
      splitTags ((toRow f).Missing_Tags) = f.Missing_Tags := by
    intro f hf
    simp only [toRow]
    exact splitTags_joinTags f.Missing_Tags (h f hf).1 (h f hf).2
  refine ⟨?_, hsplit⟩
  rw [writeDataset, List.map_map]
  have hid : ∀ f ∈ findings,
      ({ Account := (toRow f).Account, Region := (toRow f).Region,
         Resource := (toRow f).Resource, ARN := (toRow f).ARN,
         Missing_Tags := splitTags (toRow f).Missing_Tags } : Finding) = f := by
    intro f hf
    cases f with
    | mk a r k arn mt =>
      have hs := hsplit ⟨a, r, k, arn, mt⟩ hf
      simp only [toRow] at hs ⊢
      rw [hs]
  calc findings.map (Function.comp (fun r =>
          ({ Account := r.Account, Region := r.Region, Resource := r.Resource,
             ARN := r.ARN, Missing_Tags := splitTags r.Missing_Tags } : Finding))
          toRow)
      = findings.map id := List.map_congr_left (fun f hf => hid f hf)
    _ = findings := List.map_id findings

/-- C7 witness: a two-name comma-free finding round-trips through its
dataset cell. -/
theorem C7_roundtrip_witness :
    splitTags ((toRow vpcRoundtripFinding).Missing_Tags)
      = vpcRoundtripFinding.Missing_Tags :=
  (C7_roundtrip [vpcRoundtripFinding] (by decide)).2 vpcRoundtripFinding (by decide)

/-- Membership in a stable descending insertion. -/
theorem mem_insertByCountDesc (p q : String × Nat) (l : List (String × Nat)) :
    q ∈ insertByCountDesc p l ↔ q = p ∨ q ∈ l := by
  induction l with
  | nil => simp [insertByCountDesc]
  | cons r rs ih =>
    simp only [insertByCountDesc]
    split
    · simp [List.mem_cons]
    · simp only [List.mem_cons, ih]
      tauto

/-- Stable descending insertion preserves descending-sortedness by count. -/
theorem pairwise_insertByCountDesc (p : String × Nat) (l : List (String × Nat))
    (hl : List.Pairwise (fun a b => b.2 ≤ a.2) l) :
    List.Pairwise (fun a b => b.2 ≤ a.2) (insertByCountDesc p l) := by
  induction l with
  | nil => simp [insertByCountDesc]
  | cons q qs ih =>
    rcases List.pairwise_cons.mp hl with ⟨hq, hqs⟩
    simp only [insertByCountDesc]
    split
    · next hlt =>
      refine List.pairwise_cons.mpr ⟨?_, hl⟩
      intro r hr
      rcases List.mem_cons.mp hr with rfl | hr
      · exact Nat.le_of_lt hlt
      · exact Nat.le_trans (hq r hr) (Nat.le_of_lt hlt)
    · next hge =>
      refine List.pairwise_cons.mpr ⟨?_, ih hqs⟩
      intro r hr
      rcases (mem_insertByCountDesc p r qs).mp hr with rfl | hr
      · exact Nat.le_of_not_lt hge
      · exact hq r hr

/-- Folding stable insertions over a sorted accumulator stays sorted. -/
theorem pairwise_foldl_insertByCountDesc (items : List (String × Nat)) :
    ∀ acc : List (String × Nat),
      List.Pairwise (fun a b => b.2 ≤ a.2) acc →
      List.Pairwise (fun a b => b.2 ≤ a.2)
        (items.foldl (fun a p => insertByCountDesc p a) acc) := by
  induction items with
  | nil => intro acc hacc; exact hacc
  | cons p ps ih =>
    intro acc hacc
    exact ih _ (pairwise_insertByCountDesc p acc hacc)

/-- The sorted table is a permutation of the counter items: same members. -/
theorem mem_foldl_insertByCountDesc (items : List (String × Nat)) :
    ∀ (acc : List (String × Nat)) (q : String × Nat),
      q ∈ items.foldl (fun a p => insertByCountDesc p a) acc ↔
        q ∈ acc ∨ q ∈ items := by
  induction items with
  | nil => intro acc q; simp
  | cons p ps ih =>
    intro acc q
    rw [List.foldl_cons, ih]
    rw [mem_insertByCountDesc]
    simp only [List.mem_cons]
    tauto

/-- Inserting into a sorted list places the new pair after every equal-count
pair: the equal-count slice gains the pair at its end. -/
theorem filter_insertByCountDesc (c : Nat) (p : String × Nat)
    (l : List (String × Nat)) (hl : List.Pairwise (fun a b => b.2 ≤ a.2) l) :
    (insertByCountDesc p l).filter (fun q => q.2 == c)
      = if p.2 = c then l.filter (fun q => q.2 == c) ++ [p]
        else l.filter (fun q => q.2 == c) := by
  induction l with
  | nil =>
    by_cases hc : p.2 = c
    · simp [insertByCountDesc, List.filter_cons, hc]
    · simp [insertByCountDesc, List.filter_cons, hc]
  | cons q qs ih =>
    rcases List.pairwise_cons.mp hl with ⟨hq, hqs⟩
    simp only [insertByCountDesc]
    split
    · next hlt =>
      by_cases hc : p.2 = c
      · have hnil : (q :: qs).filter (fun r => r.2 == c) = [] := by
          apply List.filter_eq_nil_iff.mpr
          intro r hr
          have hrlt : r.2 < p.2 := by
            rcases List.mem_cons.mp hr with rfl | hr2
            · exact hlt
            · exact Nat.lt_of_le_of_lt (hq r hr2) hlt
          simp only [beq_iff_eq]
          omega
        rw [if_pos hc]
        rw [hnil]
        rw [List.filter_cons]
        rw [hnil]
        simp [hc]
      · rw [if_neg hc]
        rw [List.filter_cons]
        simp [hc]
    · next hge =>
      simp only [List.filter_cons, ih hqs]
      by_cases hc : p.2 = c <;> by_cases hqc : q.2 = c <;> simp [hc, hqc]

/-- The equal-count slice of the whole fold is the accumulator slice followed
by the items slice in item order: the sort is stable. -/
theorem filter_foldl_insertByCountDesc (c : Nat) (items : List (String × Nat)) :
    ∀ acc : List (String × Nat),
      List.Pairwise (fun a b => b.2 ≤ a.2) acc →
      (items.foldl (fun a p => insertByCountDesc p a) acc).filter
          (fun q => q.2 == c)
        = acc.filter (fun q => q.2 == c) ++ items.filter (fun q => q.2 == c) := by
  induction items with
  | nil => intro acc hacc; simp
  | cons p ps ih =>
    intro acc hacc
    rw [List.foldl_cons, ih _ (pairwise_insertByCountDesc p acc hacc),
        filter_insertByCountDesc c p acc hacc]
    by_cases hc : p.2 = c
    · rw [if_pos hc]
      simp only [List.filter_cons]
      simp [hc, List.append_assoc]
    · rw [if_neg hc]
      simp only [List.filter_cons]
      simp [hc]

/-- The most-common table is descending-sorted by count. -/
theorem pairwise_most_common (items : List (String × Nat)) :
    List.Pairwise (fun a b => b.2 ≤ a.2) (most_common items) :=
  pairwise_foldl_insertByCountDesc items [] (by simp)

/-- The equal-count slices of the most-common table are the item slices. -/
theorem filter_most_common (c : Nat) (items : List (String × Nat)) :
    (most_common items).filter (fun q => q.2 == c)
      = items.filter (fun q => q.2 == c) := by
  have h := filter_foldl_insertByCountDesc c items [] (by simp)
  simpa [most_common] using h

/-- One counter step moves the key list by one first-seen step. -/
theorem counterAdd_fst (acc : List (String × Nat)) (x : String) :
    (counterAdd acc x).map Prod.fst = firstSeenStep (acc.map Prod.fst) x := by
  have hiff : (acc.any (fun p => p.1 == x) = true) ↔ x ∈ acc.map Prod.fst := by
    simp [List.any_eq_true, beq_iff_eq, List.mem_map]
  unfold counterAdd firstSeenStep
  by_cases h : acc.any (fun p => p.1 == x) = true
  · rw [if_pos h, if_pos (hiff.mp h), List.map_map]
    apply List.map_congr_left
    intro p hp
    by_cases hpx : (p.1 == x) = true <;> simp [Function.comp, hpx]
  · rw [if_neg h, if_neg (fun hx => h (hiff.mpr hx))]
    simp

/-- First-seen keys of a list extended by one element. -/
theorem firstSeen_append_one (l : List String) (x : String) :
    firstSeen (l ++ [x]) = firstSeenStep (firstSeen l) x := by
  simp [firstSeen, List.foldl_append]

/-- Membership under the first-seen fold. -/
theorem mem_firstSeen_foldl (l : List String) :
    ∀ (acc : List String) (x : String),
      x ∈ l.foldl firstSeenStep acc ↔ x ∈ acc ∨ x ∈ l := by
  induction l with
  | nil => intro acc x; simp
  | cons y ys ih =>
    intro acc x
    rw [List.foldl_cons, ih]
    unfold firstSeenStep
    by_cases hy : y ∈ acc
    · rw [if_pos hy]
      simp only [List.mem_cons]
      constructor
      · intro hx
        tauto
      · intro hx
        rcases hx with hx | hx | hx
        · exact Or.inl hx
        · exact Or.inl (hx ▸ hy)
        · exact Or.inr hx
    · rw [if_neg hy]
      simp only [List.mem_append, List.mem_cons, List.mem_singleton]
      tauto

/-- The first-seen keys are exactly the elements. -/
theorem mem_firstSeen (l : List String) (x : String) :
    x ∈ firstSeen l ↔ x ∈ l := by
  have h := mem_firstSeen_foldl l [] x
  simpa [firstSeen] using h

/-- One counter step keeps every pair's count equal to the multiplicity of
its key in the consumed prefix. -/
theorem counterAdd_count (acc : List (String × Nat)) (x : String)
    (consumed : List String)
    (h1 : acc.map Prod.fst = firstSeen consumed)
    (h2 : ∀ p ∈ acc, p.2 = consumed.count p.1) :
    ∀ p ∈ counterAdd acc x, p.2 = (consumed ++ [x]).count p.1 := by
  intro p hp
  have hcnt : ∀ k : String, (consumed ++ [x]).count k
      = consumed.count k + (if k = x then 1 else 0) := by
    intro k
    by_cases hk : k = x
    · simp [List.count_append, hk]
    · simp [List.count_append, hk, List.count_singleton]
  unfold counterAdd at hp
  by_cases h : acc.any (fun q => q.1 == x) = true
  · rw [if_pos h] at hp
    rcases List.mem_map.mp hp with ⟨q, hq, rfl⟩
    by_cases hqx : (q.1 == x) = true
    · have hqx2 : q.1 = x := beq_iff_eq.mp hqx
      rw [hcnt]
      simp [hqx, hqx2, h2 q hq]
    · have hqx2 : q.1 ≠ x := fun hx => hqx (beq_iff_eq.mpr hx)
      rw [hcnt]
      simp [hqx, hqx2, h2 q hq]
  · rw [if_neg h] at hp
    rcases List.mem_append.mp hp with hq | hq
    · have hpx : p.1 ≠ x := by
        intro hx
        apply h
        exact List.any_eq_true.mpr ⟨p, hq, by simp [hx]⟩
      rw [hcnt]
      simp [hpx, h2 p hq]
    · simp only [List.mem_singleton] at hq
      subst hq
      rw [hcnt]
      have hx0 : consumed.count x = 0 := by
        rw [List.count_eq_zero]
        intro hx
        have hmem : x ∈ firstSeen consumed := (mem_firstSeen consumed x).mpr hx
        rw [← h1] at hmem
        rcases List.mem_map.mp hmem with ⟨q, hq2, hq1⟩
        exact absurd (List.any_eq_true.mpr ⟨q, hq2, by simp [hq1]⟩) h
      simp [hx0]

/-- The counter fold keeps keys in first-seen order and counts equal to
multiplicities. -/
theorem counter_foldl_invariant (xs : List String) :
    ∀ (consumed : List String) (acc : List (String × Nat)),
      acc.map Prod.fst = firstSeen consumed →
      (∀ p ∈ acc, p.2 = consumed.count p.1) →
      ((xs.foldl counterAdd acc).map Prod.fst = firstSeen (consumed ++ xs) ∧
       ∀ p ∈ xs.foldl counterAdd acc, p.2 = (consumed ++ xs).count p.1) := by
  induction xs with
  | nil =>
    intro consumed acc h1 h2
    constructor
    · simpa using h1
    · simpa using h2
  | cons x xs ih =>
    intro consumed acc h1 h2
    have hstep1 : (counterAdd acc x).map Prod.fst = firstSeen (consumed ++ [x]) := by
      rw [counterAdd_fst, h1, firstSeen_append_one]
    have hstep2 := counterAdd_count acc x consumed h1 h2
    have hrec := ih (consumed ++ [x]) (counterAdd acc x) hstep1 hstep2
    constructor
    · rw [List.foldl_cons]
      have h := hrec.1
      rw [List.append_assoc] at h
      simpa using h
    · rw [List.foldl_cons]
      intro p hp
      have h := hrec.2 p hp
      rw [List.append_assoc] at h
      simpa using h

/-- Counter keys are the kinds in first-appearance order. -/
theorem counterItems_fst (xs : List String) :
    (counterItems xs).map Prod.fst = firstSeen xs := by
  have h := (counter_foldl_invariant xs [] [] (by simp [firstSeen]) (by simp)).1
  simpa [counterItems] using h

/-- Counter counts are the multiplicities. -/
theorem counterItems_count (xs : List String) :
    ∀ p ∈ counterItems xs, p.2 = xs.count p.1 := by
  intro p hp
  have h := (counter_foldl_invariant xs [] [] (by simp [firstSeen]) (by simp)).2 p
  simp only [List.nil_append] at h
  exact h hp

/-- C8: the grouped-by-resource-kind frequency table is sorted by count
descending; its equal-count slices keep the counter's insertion order, whose
keys stand in first-appearance order of the dataset; every listed count is
the kind's multiplicity; and the three-EC2-two-VPC example dataset reports
EC2 Instance 3 before VPC 2. -/
theorem C8_frequency_table_order :
    (∀ rows : List CSVRow,
      List.Pairwise (fun a b => b.2 ≤ a.2) (resourceTypeCounts rows)) ∧
    (∀ (rows : List CSVRow) (c : Nat),
      (resourceTypeCounts rows).filter (fun q => q.2 == c)
        = (counterItems (rows.map CSVRow.Resource)).filter (fun q => q.2 == c)) ∧
    (∀ rows : List CSVRow,
      (counterItems (rows.map CSVRow.Resource)).map Prod.fst
        = firstSeen (rows.map CSVRow.Resource)) ∧
    (∀ rows : List CSVRow, ∀ p ∈ resourceTypeCounts rows,
      p.2 = (rows.map CSVRow.Resource).count p.1) ∧
    resourceTypeCounts exampleRows = [("EC2 Instance", 3), ("VPC", 2)] := by
  refine ⟨?_, ?_, ?_, ?_, by decide⟩
  · intro rows
    exact pairwise_most_common _
  · intro rows c
    exact filter_most_common c _
  · intro rows
    exact counterItems_fst _
  · intro rows p hp
    have hp2 : p ∈ counterItems (rows.map CSVRow.Resource) := by
      have h := (mem_foldl_insertByCountDesc
        (counterItems (rows.map CSVRow.Resource)) [] p).mp hp
      simpa using h
    exact counterItems_count _ p hp2

/-- C8 witness: the example table's leading EC2 Instance entry indeed counts
its three occurrences in the example dataset. -/
theorem C8_frequency_table_order_witness :
    (("EC2 Instance", 3) : String × Nat).2
      = (exampleRows.map CSVRow.Resource).count ("EC2 Instance", 3).1 :=
  C8_frequency_table_order.2.2.2.1 exampleRows ("EC2 Instance", 3) (by decide)
